import Mathlib

/-!
A shallow embedding of `src/agents/dynamic.py` (`DynamicAgentRuntime`): the
turn orchestrator of a configuration-defined agent.  Optional dictionary
entries are `Option` fields, Python truthiness of strings is made explicit,
fallible external collaborators (retriever, memory store, tool executor,
agentic loop) are parameters returning `Except`, and `try/except` blocks
become matches on those `Except` values.
-/

namespace DynamicAgent

/-- Python truthiness of an optional string: `None` and `""` are falsy. -/
def truthyS : Option String → Bool
  | none => false
  | some s => s != ""

/-- One knowledge entry of `config["knowledge"]`.  `rag_status` models the
nested lookup `k.get("rag", \x7b\x7d).get("status")` of the source. -/
structure KnowledgeEntry where
  name : Option String
  content : Option String
  inclusion_mode : Option String
  rag_status : Option String
  deriving Repr, DecidableEq

/-- A chat message: a dict with optional `role` and `content` entries. -/
structure Message where
  role : Option String
  content : Option String
  deriving Repr, DecidableEq

/-- The `function` dict of a tool spec: its `name` entry, plus the remaining
entries (description, parameters schema) kept opaque as `details`. -/
structure ToolFunction where
  name : Option String
  details : String
  deriving Repr, DecidableEq

/-- The `_meta` dict of a tool spec. -/
structure ToolMeta where
  function_path : Option String
  tool_id : Option String
  is_dynamic : Option Bool
  deriving Repr, DecidableEq

/-- One entry of `config["tools"]`. -/
structure ToolSpec where
  type : Option String
  function : Option ToolFunction
  meta : Option ToolMeta
  deriving Repr, DecidableEq

/-- The effective agent configuration.  `memory_enabled` models
`config.get("extra", \x7b\x7d).get("memory_enabled", True)`: `none` is an
absent key.  `rag_config` is kept opaque. -/
structure AgentConfig where
  system_prompt : Option String
  knowledge : List KnowledgeEntry
  tools : List ToolSpec
  model : Option String
  rag_config : String
  memory_enabled : Option Bool
  deriving Repr, DecidableEq

/-- The run context of one turn.  `user_id` models
`ctx.metadata.get("user_id")`, `params_model` models
`ctx.params.get("model")`. -/
structure RunContext where
  input_messages : List Message
  conversation_id : Option String
  run_id : String
  params_model : Option String
  user_id : Option String
  deriving Repr, DecidableEq

/-- One conversation-scoped memory record. -/
structure MemoryRecord where
  key : String
  value : String
  source : String
  deriving Repr, DecidableEq

/-- A `ConversationMemoryStore` handle.  `recallFails` (resp. `persistFails`)
being `some e` means `recall_all` (resp. `remember`) raises `e`. -/
structure MemoryStore where
  records : List MemoryRecord
  recallFails : Option String
  persistFails : Option String
  deriving Repr, DecidableEq

/-- Modelled from the spec: `ConversationMemoryStore.format_for_prompt`
(external store, not under `src/`) formats recalled records as prompt text,
one line per key/value record, in store order. -/
def formatForPrompt (records : List MemoryRecord) : String :=
  String.intercalate "\n" (records.map (fun r => r.key ++ ": " ++ r.value))

/-- Modelled from the spec: `ConversationMemoryStore.recall_all` (external
store, not under `src/`) fetches all records in scope, or raises. -/
def MemoryStore.recallAll (s : MemoryStore) : Except String (List MemoryRecord) :=
  match s.recallFails with
  | some e => .error e
  | none => .ok s.records

/-- Modelled from the spec: `ConversationMemoryStore.remember` (external
store, not under `src/`) persists exactly one record tagged with the given
source, or raises; the result is the list of records the call persisted. -/
def MemoryStore.rememberOp (s : MemoryStore) (key value source : String) :
    Except String (List MemoryRecord) :=
  match s.persistFails with
  | some e => .error e
  | none => .ok [⟨key, value, source⟩]

/-- `_recall_memories`: recall failures degrade to `""`; an empty (falsy)
record list skips formatting. -/
def recallMemories (s : MemoryStore) : String :=
  match s.recallAll with
  | .error _ => ""
  | .ok memories => if memories.isEmpty then "" else formatForPrompt memories

/-- `json.dumps` of a single-entry error dict. -/
def jsonError (msg : String) : String :=
  "\x7b\"error\": \"" ++ msg ++ "\"\x7d"

/-- The payload `_execute_remember_tool` returns when no memory store handle
was acquired for the turn. -/
def memoryUnavailablePayload : String :=
  "\x7b\"error\": \"Memory not available for this conversation\", \"hint\": \"Memory requires a logged-in user and conversation context\"\x7d"

/-- The success payload of `_execute_remember_tool`. -/
def rememberSuccessPayload (key : String) : String :=
  "\x7b\"success\": true, \"message\": \"Remembered: " ++ key ++ "\"\x7d"

/-- The arguments dict of a tool call: the `key` and `value` entries the
remember tool reads, plus the remaining entries kept opaque as `rest`. -/
structure ToolArgs where
  key : Option String
  value : Option String
  rest : String
  deriving Repr, DecidableEq

/-- `_execute_remember_tool` (src lines 228-257).  `String.trim` models
Python `str.strip()`.  The second component is the list of records the call
persisted (empty when validation fails or persistence raises). -/
def executeRememberTool (args : ToolArgs) (store : Option MemoryStore) :
    String × List MemoryRecord :=
  match store with
  | none => (memoryUnavailablePayload, [])
  | some s =>
    let key := (args.key.getD "").trim
    let value := (args.value.getD "").trim
    if key = "" then (jsonError "Missing required parameter: key", [])
    else if value = "" then (jsonError "Missing required parameter: value", [])
    else
      match s.rememberOp key value "agent" with
      | .ok persisted => (rememberSuccessPayload key, persisted)
      | .error e => (jsonError e, [])

/-- The body `"## \x7bname\x7d\n\x7bcontent\x7d"` one knowledge entry
contributes to `_build_knowledge_context`, when it contributes. -/
def knowledgePart (k : KnowledgeEntry) : Option String :=
  if k.inclusion_mode = some "always" then
    match k.content with
    | some c => if c = "" then none else some ("## " ++ k.name.getD "Knowledge" ++ "\n" ++ c)
    | none => none
  else none

/-- `_build_knowledge_context` (src lines 259-268). -/
def buildKnowledgeContext (config : AgentConfig) : String :=
  String.intercalate "\n\n" (config.knowledge.filterMap knowledgePart)

/-- The rag-eligible entries `_retrieve_rag_knowledge` selects. -/
def ragEntries (config : AgentConfig) : List KnowledgeEntry :=
  config.knowledge.filter
    (fun k => k.inclusion_mode == some "rag" && k.rag_status == some "indexed")

/-- The query `_retrieve_rag_knowledge` extracts: the content of the most
recent message with role `user`, scanning from the end; `""` when there is
none (or its content is missing). -/
def lastUserQuery (msgs : List Message) : String :=
  match msgs.reverse.find? (fun m => m.role == some "user") with
  | some m => m.content.getD ""
  | none => ""

/-- The arguments of one call to `KnowledgeRetriever.retrieve_for_agent`. -/
structure RetrieveCall where
  agent_id : String
  query : String
  rag_config : String
  deriving Repr, DecidableEq

/-- The retriever call `_retrieve_rag_knowledge` makes, or `none` when it
returns early without invoking the external retriever (no indexed rag entry,
or the extracted query is falsy). -/
def ragCall (agentId : String) (config : AgentConfig) (msgs : List Message) :
    Option RetrieveCall :=
  if ragEntries config = [] then none
  else
    let q := lastUserQuery msgs
    if q = "" then none
    else some ⟨agentId, q, config.rag_config⟩

/-- `_retrieve_rag_knowledge` (src lines 270-317), with the external
retriever a parameter: its text is returned verbatim, its exceptions degrade
to `""`. -/
def retrieveRagKnowledge (agentId : String) (config : AgentConfig)
    (msgs : List Message) (retriever : RetrieveCall → Except String String) : String :=
  match ragCall agentId config msgs with
  | none => ""
  | some call =>
    match retriever call with
    | .ok text => text
    | .error _ => ""

/-- The default for `tool.get("function", \x7b\x7d)`. -/
def emptyToolFunction : ToolFunction := ⟨none, ""⟩

/-- A provider-facing call schema: only `type` and `function`, never `_meta`. -/
structure ToolSchema where
  type : String
  function : ToolFunction
  deriving Repr, DecidableEq

/-- The `function` dict of `MEMORY_TOOL_SCHEMA`: name `remember`, with a
description and an object parameters schema requiring the two string
properties `key` and `value`, kept opaque in `details`. -/
def memoryToolFunction : ToolFunction :=
  ⟨some "remember",
   "description: store information to remember for this conversation; parameters: object, required string properties key and value"⟩

/-- The built-in `MEMORY_TOOL_SCHEMA` (src lines 31-59). -/
def MEMORY_TOOL_SCHEMA : ToolSchema := ⟨"function", memoryToolFunction⟩

/-- One schema of `_build_tool_schemas`: the tool stripped to `type`
(default `"function"`) and `function` (default empty). -/
def stripSchema (t : ToolSpec) : ToolSchema :=
  ⟨t.type.getD "function", t.function.getD emptyToolFunction⟩

/-- `_build_tool_schemas` (src lines 319-329). -/
def buildToolSchemas (tools : List ToolSpec) : List ToolSchema :=
  tools.map stripSchema

/-- The schema list `run` passes to the agentic loop before the
empty-to-`None` sentinel step: config schemas, plus `MEMORY_TOOL_SCHEMA`
appended when memory is enabled (src lines 130-133). -/
def runToolSchemas (memoryOn : Bool) (tools : List ToolSpec) : List ToolSchema :=
  if memoryOn then buildToolSchemas tools ++ [MEMORY_TOOL_SCHEMA]
  else buildToolSchemas tools

/-- One value of the execution map. -/
structure ToolInfo where
  function_path : Option String
  tool_id : Option String
  is_dynamic : Bool
  deriving Repr, DecidableEq

/-- The execution-map value `_build_tool_map` derives from a tool's `_meta`. -/
def toolInfoOf (t : ToolSpec) : ToolInfo :=
  let m := t.meta.getD ⟨none, none, none⟩
  ⟨m.function_path, m.tool_id, m.is_dynamic.getD false⟩

/-- The name under which a tool is entered into the execution map:
`func_info.get("name")` when truthy (present and non-empty). -/
def declaredName (t : ToolSpec) : Option String :=
  match (t.function.getD emptyToolFunction).name with
  | some n => if n = "" then none else some n
  | none => none

/-- A Python dict with string keys, as an insertion-ordered association list
with distinct keys: `mapSet` overwrites the entry of an existing key in
place, else appends. -/
def mapSet : List (String × ToolInfo) → String → ToolInfo → List (String × ToolInfo)
  | [], k, v => [(k, v)]
  | p :: m, k, v => if p.1 = k then (k, v) :: m else p :: mapSet m k v

/-- `dict.get`: the value at a key, if present. -/
def mapGet : List (String × ToolInfo) → String → Option ToolInfo
  | [], _ => none
  | p :: m, k => if p.1 = k then some p.2 else mapGet m k

/-- One loop iteration of `_build_tool_map`: a tool with a truthy declared
name is entered into the dict, others are skipped. -/
def toolMapStep (m : List (String × ToolInfo)) (t : ToolSpec) : List (String × ToolInfo) :=
  match declaredName t with
  | some n => mapSet m n (toolInfoOf t)
  | none => m

/-- `_build_tool_map` (src lines 331-345): one dict entry per truthy declared
function name, a later tool overwriting an earlier one of the same name. -/
def buildToolMap (tools : List ToolSpec) : List (String × ToolInfo) :=
  tools.foldl toolMapStep []

/-- The keys of the execution map, in insertion order. -/
def mapKeys (m : List (String × ToolInfo)) : List String :=
  m.map Prod.fst

/-- The declared (truthy) function names of a config's tools, in order. -/
def declaredNames (tools : List ToolSpec) : List String :=
  tools.filterMap declaredName

/-- The execution-map value of the last config tool declaring a name. -/
def lastDeclaredInfo : List ToolSpec → String → Option ToolInfo
  | [], _ => none
  | t :: ts, n =>
    (lastDeclaredInfo ts n).or
      (if declaredName t = some n then some (toolInfoOf t) else none)

/-- What the external tool executor returns: a string passed through
verbatim, or a non-string value whose `json.dumps` encoding is `enc`. -/
inductive ExecOut where
  | text (s : String)
  | value (enc : String)
  deriving Repr, DecidableEq

/-- The arguments of one call to `DynamicToolExecutor.execute`. -/
structure ExecCall where
  function_path : String
  arguments : ToolArgs
  agent_run_id : String
  user_id : Option String
  tool_id : Option String
  deriving Repr, DecidableEq

/-- `_execute_tool` (src lines 347-382), with the external executor a
parameter.  A missing map entry or a falsy `function_path` yields the
structured no-function_path error; an executor exception is caught and
returned as the structured error payload.  Totality of this definition is
the source's guarantee that dispatch never raises. -/
def executeDynamicTool (name : String) (args : ToolArgs)
    (toolMap : List (String × ToolInfo)) (executor : ExecCall → Except String ExecOut)
    (runId : String) (userId : Option String) : String :=
  let info := mapGet toolMap name
  match info.bind (fun i => i.function_path) with
  | none => jsonError ("Tool '" ++ name ++ "' has no function_path configured")
  | some p =>
    if p = "" then jsonError ("Tool '" ++ name ++ "' has no function_path configured")
    else
      match executor ⟨p, args, runId, userId, info.bind (fun i => i.tool_id)⟩ with
      | .ok (.text s) => s
      | .ok (.value enc) => enc
      | .error e => jsonError e

/-- The `execute_tool` closure `run` hands to the agentic loop (src lines
148-155): the name `remember` is special-cased to the built-in memory
handler before the execution map is consulted; any other name goes to
`_execute_tool`, which persists nothing. -/
def executeToolDispatch (name : String) (args : ToolArgs)
    (store : Option MemoryStore) (toolMap : List (String × ToolInfo))
    (executor : ExecCall → Except String ExecOut) (runId : String)
    (userId : Option String) : String × List MemoryRecord :=
  if name = "remember" then executeRememberTool args store
  else (executeDynamicTool name args toolMap executor runId userId, [])

/-- `_get_memory_store` (src lines 184-213), with user resolution and store
construction a parameter `acquire`: absent when either id is falsy, and any
exception is caught and degrades to absence. -/
def getMemoryStore (ctx : RunContext)
    (acquire : String → String → Except String MemoryStore) : Option MemoryStore :=
  if !truthyS ctx.user_id || !truthyS ctx.conversation_id then none
  else
    match acquire (ctx.user_id.getD "") (ctx.conversation_id.getD "") with
    | .ok s => some s
    | .error _ => none

/-- `extra.get("memory_enabled", True)` (src lines 96-97). -/
def memoryEnabledFlag (config : AgentConfig) : Bool :=
  config.memory_enabled.getD true

/-- The `memory_store` variable of `run` (src lines 116-118): acquired only
when memory is enabled. -/
def turnMemoryStore (config : AgentConfig) (ctx : RunContext)
    (acquire : String → String → Except String MemoryStore) : Option MemoryStore :=
  if memoryEnabledFlag config then getMemoryStore ctx acquire else none

/-- The memory recall layer of the prompt: empty without a store handle. -/
def memoryRecallLayer : Option MemoryStore → String
  | none => ""
  | some s => recallMemories s

/-- One prompt-layer step of `run`:
`if layer: prompt = f"\x7bprompt\x7d\n\n\x7blayer\x7d"`. -/
def appendLayer (base layer : String) : String :=
  if layer = "" then base else base ++ "\n\n" ++ layer

/-- The system prompt `run` assembles (src lines 100-122): base prompt, then
knowledge context, then rag context, then memory recall, each appended by
`appendLayer`. -/
def runSystemPrompt (agentId : String) (config : AgentConfig) (ctx : RunContext)
    (retriever : RetrieveCall → Except String String)
    (acquire : String → String → Except String MemoryStore) : String :=
  appendLayer
    (appendLayer
      (appendLayer (config.system_prompt.getD "") (buildKnowledgeContext config))
      (retrieveRagKnowledge agentId config ctx.input_messages retriever))
    (memoryRecallLayer (turnMemoryStore config ctx acquire))

/-- The message list `run` passes to the agentic loop (src lines 124-128):
the assembled system message (when truthy) before the conversation. -/
def runMessages (agentId : String) (config : AgentConfig) (ctx : RunContext)
    (retriever : RetrieveCall → Except String String)
    (acquire : String → String → Except String MemoryStore) : List Message :=
  let sp := runSystemPrompt agentId config ctx retriever acquire
  (if sp = "" then [] else [⟨some "system", some sp⟩]) ++ ctx.input_messages

/-- The spec's description of prompt assembly: starting from the base
prompt, each layer in order is appended only if non-empty, separated from
what precedes it by a blank line. -/
def layeredPrompt (base : String) (layers : List String) : String :=
  layers.foldl (fun acc layer => if layer = "" then acc else acc ++ "\n\n" ++ layer) base

/-- What the external agentic loop returns on success. -/
structure LoopResult where
  final_content : Option String
  messages : List Message
  deriving Repr, DecidableEq

/-- The events `run` can emit through `ctx.emit`. -/
inductive Event where
  | assistantMessage (content : String)
  | runFailed (error : String)
  deriving Repr, DecidableEq

/-- The `RunResult` `run` returns: `final_output["response"]` and the
transcript. -/
structure RunResult where
  response : Option String
  final_messages : List Message
  deriving Repr, DecidableEq

/-- The tail of `run` (src lines 157-182): on loop success, the assistant
message event is emitted only when `final_content` is truthy and the result
is returned; on a loop exception, one run-failed event is emitted and the
exception is re-raised.  The first component lists the emitted events in
order. -/
def runOutcome (loop : Except String LoopResult) :
    List Event × Except String RunResult :=
  match loop with
  | .ok r =>
    ((if truthyS r.final_content then
        [Event.assistantMessage (r.final_content.getD "")]
      else []),
     .ok ⟨r.final_content, r.messages⟩)
  | .error e => ([Event.runFailed e], .error e)

end DynamicAgent

namespace DynamicAgent

/-! ### Knowledge Assembler (C8) -/

/-- Whether a knowledge entry contributes to the Knowledge Assembler output:
inclusion mode `always` and non-empty content (the spec's words). -/
def qualifiesAlways (k : KnowledgeEntry) : Bool :=
  k.inclusion_mode == some "always" && k.content.getD "" != ""

/-- The header-and-body block a qualifying entry contributes. -/
def renderKnowledge (k : KnowledgeEntry) : String :=
  "## " ++ k.name.getD "Knowledge" ++ "\n" ++ k.content.getD ""

theorem knowledgePart_eq (k : KnowledgeEntry) :
    knowledgePart k = if qualifiesAlways k then some (renderKnowledge k) else none := by
  unfold knowledgePart qualifiesAlways renderKnowledge
  cases hc : k.content with
  | none => by_cases hm : k.inclusion_mode = some "always" <;> simp [hm, hc]
  | some c =>
    by_cases hm : k.inclusion_mode = some "always" <;>
      by_cases hcc : c = "" <;> simp [hm, hc, hcc]

theorem filterMap_knowledgePart (ks : List KnowledgeEntry) :
    ks.filterMap knowledgePart = (ks.filter qualifiesAlways).map renderKnowledge := by
  induction ks with
  | nil => rfl
  | cons k ks ih =>
    rw [List.filterMap_cons, List.filter_cons]
    cases hq : qualifiesAlways k
    · have hp : knowledgePart k = none := by rw [knowledgePart_eq, hq]; rfl
      simp [hp, hq, ih]
    · have hp : knowledgePart k = some (renderKnowledge k) := by rw [knowledgePart_eq, hq]; rfl
      simp [hp, hq, ih]

/-- C8: the Knowledge Assembler output is exactly the blank-line-joined
concatenation, in original list order, of the `## name` headers and content
bodies of the entries with inclusion mode `always` and non-empty content;
entries without content and rag-mode entries contribute nothing, and the
output is the empty string when no entry qualifies. -/
theorem C8_knowledge_assembler (config : AgentConfig) :
    buildKnowledgeContext config =
      String.intercalate "\n\n"
        ((config.knowledge.filter qualifiesAlways).map renderKnowledge)
    ∧ (config.knowledge.filter qualifiesAlways = [] → buildKnowledgeContext config = "") := by
  constructor
  · rw [buildKnowledgeContext, filterMap_knowledgePart]
  · intro h
    rw [buildKnowledgeContext, filterMap_knowledgePart, h]
    rfl

/-! ### Turn Orchestrator prompt assembly (C1) -/

/-- The end-to-end example config of the spec: base prompt, one always-mode
knowledge entry, no tools, memory disabled. -/
def exampleConfigC1 : AgentConfig :=
  ⟨some "Be helpful.", [⟨some "Policy", some "No refunds.", some "always", none⟩],
   [], none, "", some false⟩

/-- The end-to-end example turn: one user message `Hi`. -/
def exampleCtxC1 : RunContext :=
  ⟨[⟨some "user", some "Hi"⟩], none, "run-1", none, none⟩

/-- C1: the assembled system prompt is the base prompt, then the Knowledge
Assembler output, then the Retrieval Bridge output, then the memory recall
layer (empty unless memory is enabled and a handle was acquired), each layer
appended only if non-empty and separated by a blank line, in this fixed
order; on the spec's end-to-end example the system message is exactly
`Be helpful.\n\n## Policy\nNo refunds.`. -/
theorem C1_system_prompt_layering (agentId : String) (config : AgentConfig)
    (ctx : RunContext) (retriever : RetrieveCall → Except String String)
    (acquire : String → String → Except String MemoryStore) :
    runSystemPrompt agentId config ctx retriever acquire =
      layeredPrompt (config.system_prompt.getD "")
        [buildKnowledgeContext config,
         retrieveRagKnowledge agentId config ctx.input_messages retriever,
         memoryRecallLayer (turnMemoryStore config ctx acquire)]
    ∧ (memoryEnabledFlag config = false → turnMemoryStore config ctx acquire = none)
    ∧ runSystemPrompt agentId exampleConfigC1 exampleCtxC1 retriever acquire =
        "Be helpful.\n\n## Policy\nNo refunds."
    ∧ runMessages agentId exampleConfigC1 exampleCtxC1 retriever acquire =
        [⟨some "system", some "Be helpful.\n\n## Policy\nNo refunds."⟩,
         ⟨some "user", some "Hi"⟩] := by
  refine ⟨rfl, ?_, ?_, ?_⟩
  · intro h
    simp [turnMemoryStore, h]
  · rfl
  · rfl

end DynamicAgent

namespace DynamicAgent

/-! ### Memory Bridge acquisition (C7, C10) -/

theorem prompt_without_memory (agentId : String) (config : AgentConfig)
    (ctx : RunContext) (retriever : RetrieveCall → Except String String)
    (acquire : String → String → Except String MemoryStore)
    (hg : turnMemoryStore config ctx acquire = none) :
    runSystemPrompt agentId config ctx retriever acquire =
      layeredPrompt (config.system_prompt.getD "")
        [buildKnowledgeContext config,
         retrieveRagKnowledge agentId config ctx.input_messages retriever] := by
  unfold runSystemPrompt layeredPrompt
  rw [hg]
  simp [memoryRecallLayer, appendLayer]

theorem turnMemoryStore_none (config : AgentConfig) (ctx : RunContext)
    (acquire : String → String → Except String MemoryStore)
    (hg : getMemoryStore ctx acquire = none) :
    turnMemoryStore config ctx acquire = none := by
  unfold turnMemoryStore
  rw [hg]
  simp

/-- C7: a turn lacking a `user_id` in its metadata or lacking a
`conversation_id` acquires no memory store handle (absence, not an error),
and the assembled system prompt carries no memory recall layer, whatever the
value of `memory_enabled`. -/
theorem C7_memory_absent (agentId : String) (config : AgentConfig)
    (ctx : RunContext) (retriever : RetrieveCall → Except String String)
    (acquire : String → String → Except String MemoryStore)
    (h : ctx.user_id = none ∨ ctx.conversation_id = none) :
    getMemoryStore ctx acquire = none
    ∧ runSystemPrompt agentId config ctx retriever acquire =
        layeredPrompt (config.system_prompt.getD "")
          [buildKnowledgeContext config,
           retrieveRagKnowledge agentId config ctx.input_messages retriever] := by
  have hg : getMemoryStore ctx acquire = none := by
    rcases h with h | h <;> simp [getMemoryStore, h, truthyS]
  exact ⟨hg, prompt_without_memory agentId config ctx retriever acquire
    (turnMemoryStore_none config ctx acquire hg)⟩

/-- A turn with a user id but no conversation id. -/
def ctxC7 : RunContext := ⟨[], none, "run-7", none, some "user-7"⟩

/-- A config with memory enabled, for the C7 witness. -/
def configC7 : AgentConfig := ⟨some "Hello.", [], [], none, "", some true⟩

/-- A retriever that always fails, for witnesses. -/
def failingRetriever : RetrieveCall → Except String String :=
  fun _ => .error "retriever down"

/-- An acquire function that always succeeds, for the C7 witness. -/
def okAcquire : String → String → Except String MemoryStore :=
  fun _ _ => .ok ⟨[], none, none⟩

theorem C7_memory_absent_witness :
    getMemoryStore ctxC7 okAcquire = none
    ∧ runSystemPrompt "agent-7" configC7 ctxC7 failingRetriever okAcquire =
        layeredPrompt (configC7.system_prompt.getD "")
          [buildKnowledgeContext configC7,
           retrieveRagKnowledge "agent-7" configC7 ctxC7.input_messages failingRetriever] :=
  C7_memory_absent "agent-7" configC7 ctxC7 failingRetriever okAcquire (Or.inr rfl)

/-- C10: with both ids present, an exception during user resolution or store
construction is caught and yields an absent handle, and the turn's prompt
simply omits the memory layer; acquisition never raises (it is a total
function into `Option`). -/
theorem C10_acquire_failure_absorbed (agentId : String) (config : AgentConfig)
    (ctx : RunContext) (retriever : RetrieveCall → Except String String)
    (acquire : String → String → Except String MemoryStore) (uid cid e : String)
    (hu : ctx.user_id = some uid) (hc : ctx.conversation_id = some cid)
    (he : acquire uid cid = .error e) :
    getMemoryStore ctx acquire = none
    ∧ runSystemPrompt agentId config ctx retriever acquire =
        layeredPrompt (config.system_prompt.getD "")
          [buildKnowledgeContext config,
           retrieveRagKnowledge agentId config ctx.input_messages retriever] := by
  have hg : getMemoryStore ctx acquire = none := by
    unfold getMemoryStore
    rw [hu, hc]
    by_cases h1 : uid = ""
    · simp [truthyS, h1]
    · by_cases h2 : cid = ""
      · simp [truthyS, h1, h2]
      · simp [truthyS, h1, h2, he]
  exact ⟨hg, prompt_without_memory agentId config ctx retriever acquire
    (turnMemoryStore_none config ctx acquire hg)⟩

/-- A turn carrying both ids, for the C10 witness. -/
def ctxC10 : RunContext := ⟨[], some "conv-10", "run-10", none, some "user-10"⟩

/-- An acquire function that always raises, for the C10 witness. -/
def failingAcquire : String → String → Except String MemoryStore :=
  fun _ _ => .error "database unavailable"

theorem C10_acquire_failure_witness :
    getMemoryStore ctxC10 failingAcquire = none
    ∧ runSystemPrompt "agent-10" configC7 ctxC10 failingRetriever failingAcquire =
        layeredPrompt (configC7.system_prompt.getD "")
          [buildKnowledgeContext configC7,
           retrieveRagKnowledge "agent-10" configC7 ctxC10.input_messages failingRetriever] :=
  C10_acquire_failure_absorbed "agent-10" configC7 ctxC10 failingRetriever failingAcquire
    "user-10" "conv-10" "database unavailable" rfl rfl rfl

end DynamicAgent

namespace DynamicAgent

/-! ### Tool Dispatcher (C2, C4) and remember validation (C6) -/

/-- C2: for a tool call whose name is not `remember`, dispatch is a total
function into result text (it never raises into the agentic loop) and
persists nothing; a name absent from the execution map, or present with no
`function_path`, returns exactly the structured
`Tool <name> has no function_path configured` error payload; and an
exception raised by the external executor is caught and returned as the
structured error payload that becomes the tool's result text. -/
theorem C2_dispatch_error_handling (name : String) (args : ToolArgs)
    (store : Option MemoryStore) (toolMap : List (String × ToolInfo))
    (executor : ExecCall → Except String ExecOut) (runId : String)
    (userId : Option String) (hname : name ≠ "remember") :
    executeToolDispatch name args store toolMap executor runId userId
      = (executeDynamicTool name args toolMap executor runId userId, [])
    ∧ (mapGet toolMap name = none →
        executeDynamicTool name args toolMap executor runId userId
          = jsonError ("Tool '" ++ name ++ "' has no function_path configured"))
    ∧ (∀ info, mapGet toolMap name = some info → info.function_path = none →
        executeDynamicTool name args toolMap executor runId userId
          = jsonError ("Tool '" ++ name ++ "' has no function_path configured"))
    ∧ (∀ p e, (mapGet toolMap name).bind (fun i => i.function_path) = some p → p ≠ "" →
        executor ⟨p, args, runId, userId,
          (mapGet toolMap name).bind (fun i => i.tool_id)⟩ = .error e →
        executeDynamicTool name args toolMap executor runId userId = jsonError e) := by
  refine ⟨by simp [executeToolDispatch, hname], ?_, ?_, ?_⟩
  · intro h
    simp [executeDynamicTool, h]
  · intro info hi hp
    simp [executeDynamicTool, hi, hp]
  · intro p e hp hpe he
    simp only [executeDynamicTool, hp]
    rw [if_neg hpe, he]

theorem C2_dispatch_error_handling_witness :
    executeToolDispatch "weather" ⟨none, none, ""⟩ none [] (fun _ => .error "boom")
        "run-2" none
      = (executeDynamicTool "weather" ⟨none, none, ""⟩ [] (fun _ => .error "boom")
          "run-2" none, [])
    ∧ executeDynamicTool "weather" ⟨none, none, ""⟩ [] (fun _ => .error "boom")
        "run-2" none
      = jsonError ("Tool '" ++ "weather" ++ "' has no function_path configured") :=
  ⟨(C2_dispatch_error_handling "weather" ⟨none, none, ""⟩ none [] (fun _ => .error "boom")
      "run-2" none (by decide)).1,
   (C2_dispatch_error_handling "weather" ⟨none, none, ""⟩ none [] (fun _ => .error "boom")
      "run-2" none (by decide)).2.1 rfl⟩

/-- C4: a tool call named `remember` is delegated to the built-in memory
handler: the dispatch result is independent of the execution map, the
external executor, the run id and the user id (so a config-declared tool of
the same name is shadowed unconditionally), it equals the built-in handler's
result, and without an acquired memory handle it is the structured
memory-not-available payload carrying a hint. -/
theorem C4_remember_builtin_dispatch (args : ToolArgs) (store : Option MemoryStore)
    (tm tm' : List (String × ToolInfo)) (ex ex' : ExecCall → Except String ExecOut)
    (rid rid' : String) (uid uid' : Option String) :
    executeToolDispatch "remember" args store tm ex rid uid
      = executeRememberTool args store
    ∧ executeToolDispatch "remember" args store tm ex rid uid
      = executeToolDispatch "remember" args store tm' ex' rid' uid'
    ∧ (executeToolDispatch "remember" args none tm ex rid uid).1
      = memoryUnavailablePayload
    ∧ memoryUnavailablePayload
      = "\x7b\"error\": \"Memory not available for this conversation\", \"hint\": \"Memory requires a logged-in user and conversation context\"\x7d" :=
  ⟨rfl, rfl, rfl, rfl⟩

/-- C6: with an acquired memory handle, a remember call with an
empty-after-trim key yields the structured missing-key error and persists
nothing; a non-empty key with an empty-after-trim value yields the distinct
structured missing-value error and persists nothing; with both present
exactly one record is persisted, tagged `source="agent"`, and the success
payload is returned; and an exception during persistence is returned as a
structured error payload (dispatch stays total) with nothing persisted. -/
theorem C6_remember_validation (s : MemoryStore) (args : ToolArgs) :
    ((args.key.getD "").trim = "" →
      executeRememberTool args (some s)
        = (jsonError "Missing required parameter: key", []))
    ∧ ((args.key.getD "").trim ≠ "" → (args.value.getD "").trim = "" →
      executeRememberTool args (some s)
        = (jsonError "Missing required parameter: value", []))
    ∧ ((args.key.getD "").trim ≠ "" → (args.value.getD "").trim ≠ "" →
        s.persistFails = none →
      executeRememberTool args (some s)
        = (rememberSuccessPayload ((args.key.getD "").trim),
           [⟨(args.key.getD "").trim, (args.value.getD "").trim, "agent"⟩]))
    ∧ (∀ e, (args.key.getD "").trim ≠ "" → (args.value.getD "").trim ≠ "" →
        s.persistFails = some e →
      executeRememberTool args (some s) = (jsonError e, [])) := by
  refine ⟨?_, ?_, ?_, ?_⟩
  · intro hk
    simp [executeRememberTool, hk]
  · intro hk hv
    simp [executeRememberTool, hk, hv]
  · intro hk hv hp
    simp [executeRememberTool, hk, hv, MemoryStore.rememberOp, hp]
  · intro e hk hv hp
    simp [executeRememberTool, hk, hv, MemoryStore.rememberOp, hp]

end DynamicAgent

namespace DynamicAgent

/-! ### Orchestrator events (C9) -/

/-- C9 counterexample: when the agentic loop returns successfully with an
absent (falsy) `final_content`, the orchestrator emits no event at all — not
the exactly-one assistant-message event the claim states. -/
theorem C9_counterexample :
    (runOutcome (Except.ok ⟨none, []⟩)).1 = []
    ∧ ¬ (∃ c, Event.assistantMessage c ∈ (runOutcome (Except.ok ⟨none, []⟩)).1) := by
  constructor
  · rfl
  · intro h
    obtain ⟨c, hc⟩ := h
    simp [runOutcome, truthyS] at hc

/-- C9 (amended): the orchestrator emits at most one event per turn; on loop
success it emits exactly one assistant-message event carrying the final text
when `final_content` is truthy, and no event when it is absent or empty,
returning the result; on a loop exception it emits exactly one run-failed
event carrying the error text and propagates the exception; no other event
is emitted. -/
theorem C9_events_amended (loop : Except String LoopResult) :
    (runOutcome loop).1.length ≤ 1
    ∧ (∀ r, loop = .ok r →
        (runOutcome loop).2 = .ok ⟨r.final_content, r.messages⟩
        ∧ (runOutcome loop).1 =
            (if truthyS r.final_content then
               [Event.assistantMessage (r.final_content.getD "")]
             else []))
    ∧ (∀ e, loop = .error e →
        runOutcome loop = ([Event.runFailed e], .error e)) := by
  refine ⟨?_, ?_, ?_⟩
  · cases loop with
    | ok r => by_cases h : truthyS r.final_content <;> simp [runOutcome, h]
    | error e => simp [runOutcome]
  · intro r h
    subst h
    exact ⟨rfl, rfl⟩
  · intro e h
    subst h
    rfl

theorem C9_events_amended_witness :
    (runOutcome (Except.error "provider down")).1.length ≤ 1
    ∧ runOutcome (Except.error "provider down")
        = ([Event.runFailed "provider down"], Except.error "provider down") :=
  ⟨(C9_events_amended (Except.error "provider down")).1,
   (C9_events_amended (Except.error "provider down")).2.2 "provider down" rfl⟩

/-! ### Retrieval Bridge (C5) -/

/-- The spec's reading of query extraction: the most recent message with
role `user` is the last element of the user-role sublist. -/
def specLastUserMessage (msgs : List Message) : Option Message :=
  (msgs.filter (fun m => m.role == some "user")).getLast?

theorem find?_eq_head?_filter (p : Message → Bool) (l : List Message) :
    l.find? p = (l.filter p).head? := by
  induction l with
  | nil => rfl
  | cons a l ih =>
    cases hpa : p a
    · rw [List.find?_cons_of_neg _ (by simp [hpa]),
        List.filter_cons_of_neg (by simp [hpa]), ih]
    · rw [List.find?_cons_of_pos _ hpa, List.filter_cons_of_pos hpa]
      rfl

theorem reverse_find?_user (msgs : List Message) :
    msgs.reverse.find? (fun m => m.role == some "user") = specLastUserMessage msgs := by
  rw [find?_eq_head?_filter, List.filter_reverse, List.head?_reverse]
  rfl

theorem lastUserQuery_eq_spec (msgs : List Message) :
    lastUserQuery msgs =
      (match specLastUserMessage msgs with
       | some m => m.content.getD ""
       | none => "") := by
  unfold lastUserQuery
  rw [reverse_find?_user]

theorem ragCall_eq (agentId : String) (config : AgentConfig) (msgs : List Message) :
    ragCall agentId config msgs =
      (if ragEntries config = [] then none
       else
         match specLastUserMessage msgs with
         | none => none
         | some m =>
           if m.content.getD "" = "" then none
           else some ⟨agentId, m.content.getD "", config.rag_config⟩) := by
  unfold ragCall
  rw [lastUserQuery_eq_spec]
  cases specLastUserMessage msgs <;> simp

/-- A rag-mode knowledge entry in status `indexed`. -/
def ragEntryC5 : KnowledgeEntry := ⟨some "Docs", none, some "rag", some "indexed"⟩

/-- A config with one indexed rag entry, for the C5 counterexample. -/
def configC5 : AgentConfig := ⟨some "Base", [ragEntryC5], [], none, "rc", some false⟩

/-- A turn whose most recent (and only) user message has empty content. -/
def msgsC5 : List Message := [⟨some "user", some ""⟩]

/-- A retriever that succeeds with a fixed text, for the C5 counterexample. -/
def okRetrieverC5 : RetrieveCall → Except String String := fun _ => .ok "RETRIEVED"

/-- C5 counterexample: with an indexed rag entry, a most recent user message
whose content is empty, and a retriever returning `RETRIEVED`, the claim
says the retriever is called with that message's content as query and its
text returned verbatim; the code makes no retriever call and returns the
empty string. -/
theorem C5_counterexample :
    ragEntries configC5 = [ragEntryC5]
    ∧ msgsC5.reverse.find? (fun m => m.role == some "user")
        = some ⟨some "user", some ""⟩
    ∧ ragCall "agent-5" configC5 msgsC5 = none
    ∧ retrieveRagKnowledge "agent-5" configC5 msgsC5 okRetrieverC5 = ""
    ∧ okRetrieverC5 ⟨"agent-5", "", "rc"⟩ = .ok "RETRIEVED"
    ∧ "" ≠ "RETRIEVED" := by
  refine ⟨rfl, rfl, rfl, rfl, rfl, by decide⟩

/-- C5 (amended): with no indexed rag entry the Retrieval Bridge returns the
empty string and makes no retriever call; the retriever is called exactly
when an indexed rag entry exists and the most recent user-role message has
non-empty content, with the agent identity, that content as query, and
`rag_config`; its text is returned verbatim on success, and an exception (or
no call) yields the empty string. -/
theorem C5_retrieval_amended (agentId : String) (config : AgentConfig)
    (msgs : List Message) (retriever : RetrieveCall → Except String String) :
    (ragEntries config = [] →
      ragCall agentId config msgs = none
      ∧ retrieveRagKnowledge agentId config msgs retriever = "")
    ∧ (∀ c, ragCall agentId config msgs = some c ↔
        (ragEntries config ≠ []
         ∧ ∃ m, specLastUserMessage msgs = some m
             ∧ c = ⟨agentId, m.content.getD "", config.rag_config⟩
             ∧ m.content.getD "" ≠ ""))
    ∧ (ragCall agentId config msgs = none →
        retrieveRagKnowledge agentId config msgs retriever = "")
    ∧ (∀ c, ragCall agentId config msgs = some c →
        retrieveRagKnowledge agentId config msgs retriever
          = (match retriever c with
             | .ok text => text
             | .error _ => "")) := by
  refine ⟨?_, ?_, ?_, ?_⟩
  · intro h
    have hc : ragCall agentId config msgs = none := by
      rw [ragCall_eq, if_pos h]
    exact ⟨hc, by rw [retrieveRagKnowledge, hc]⟩
  · intro c
    rw [ragCall_eq]
    by_cases h : ragEntries config = []
    · rw [if_pos h]
      constructor
      · intro hc
        exact absurd hc (by simp)
      · rintro ⟨hne, -⟩
        exact absurd h hne
    · rw [if_neg h]
      cases hs : specLastUserMessage msgs with
      | none =>
        constructor
        · intro hc
          exact absurd hc (by simp)
        · rintro ⟨-, m', hm', -, -⟩
          exact absurd hm' (by simp)
      | some m =>
        dsimp only
        by_cases hm : m.content.getD "" = ""
        · rw [if_pos hm]
          constructor
          · intro hc
            exact absurd hc (by simp)
          · rintro ⟨-, m', hm', -, hmne⟩
            injection hm' with hmm
            subst hmm
            exact absurd hm hmne
        · rw [if_neg hm]
          constructor
          · intro hc
            injection hc with hcc
            exact ⟨h, m, rfl, hcc.symm, hm⟩
          · rintro ⟨-, m', hm', hcc, -⟩
            injection hm' with hmm
            subst hmm
            rw [hcc]
  · intro hc
    rw [retrieveRagKnowledge, hc]
  · intro c hc
    rw [retrieveRagKnowledge, hc]

end DynamicAgent

namespace DynamicAgent

/-! ### Tool Catalog Builder (C3) -/

theorem mapGet_mapSet (m : List (String × ToolInfo)) (k : String) (v : ToolInfo)
    (n : String) :
    mapGet (mapSet m k v) n = if n = k then some v else mapGet m n := by
  induction m with
  | nil =>
    simp only [mapSet, mapGet]
    by_cases h : k = n
    · rw [if_pos h, if_pos h.symm]
    · rw [if_neg h, if_neg (fun hh => h hh.symm)]
  | cons p m ih =>
    simp only [mapSet]
    by_cases hp : p.1 = k
    · rw [if_pos hp]
      simp only [mapGet]
      by_cases hn : n = k
      · rw [if_pos hn.symm, if_pos hn]
      · have hkn : ¬ k = n := fun hh => hn hh.symm
        have hpn : ¬ p.1 = n := by rw [hp]; exact hkn
        rw [if_neg hkn, if_neg hn, if_neg hpn]
    · rw [if_neg hp]
      simp only [mapGet, ih]
      by_cases hpn : p.1 = n
      · have hnk : ¬ n = k := fun hh => hp (hpn.trans hh)
        rw [if_pos hpn, if_neg hnk, if_pos hpn]
      · by_cases hn : n = k
        · rw [if_neg hpn, if_pos hn, if_pos hn]
        · rw [if_neg hpn, if_neg hn, if_neg hn, if_neg hpn]

theorem mapKeys_mapSet (m : List (String × ToolInfo)) (k : String) (v : ToolInfo) :
    mapKeys (mapSet m k v) =
      if k ∈ mapKeys m then mapKeys m else mapKeys m ++ [k] := by
  induction m with
  | nil => simp [mapSet, mapKeys]
  | cons p m ih =>
    simp only [mapSet]
    by_cases hp : p.1 = k
    · rw [if_pos hp]
      have hmem : k ∈ mapKeys (p :: m) := by
        simp only [mapKeys, List.map_cons, List.mem_cons]
        exact Or.inl hp.symm
      rw [if_pos hmem]
      simp [mapKeys, hp]
    · rw [if_neg hp]
      have hcons : mapKeys (p :: mapSet m k v) = p.1 :: mapKeys (mapSet m k v) := rfl
      by_cases hk : k ∈ mapKeys m
      · have hmem : k ∈ mapKeys (p :: m) := by
          simp only [mapKeys, List.map_cons, List.mem_cons]
          exact Or.inr hk
        rw [hcons, ih, if_pos hk, if_pos hmem]
        rfl
      · have hmem : ¬ k ∈ mapKeys (p :: m) := by
          simp only [mapKeys, List.map_cons, List.mem_cons]
          rintro (hh | hh)
          · exact hp hh.symm
          · exact hk hh
        rw [hcons, ih, if_neg hk, if_neg hmem]
        rfl

theorem mapKeys_mapSet_nodup (m : List (String × ToolInfo)) (k : String)
    (v : ToolInfo) (h : (mapKeys m).Nodup) : (mapKeys (mapSet m k v)).Nodup := by
  rw [mapKeys_mapSet]
  by_cases hk : k ∈ mapKeys m
  · rw [if_pos hk]
    exact h
  · rw [if_neg hk]
    rw [List.nodup_append]
    refine ⟨h, List.nodup_singleton k, ?_⟩
    intro a ha hb
    rw [List.mem_singleton] at hb
    subst hb
    exact hk ha

theorem mem_mapKeys_mapSet (m : List (String × ToolInfo)) (k : String)
    (v : ToolInfo) (n : String) :
    n ∈ mapKeys (mapSet m k v) ↔ n = k ∨ n ∈ mapKeys m := by
  rw [mapKeys_mapSet]
  by_cases hk : k ∈ mapKeys m
  · rw [if_pos hk]
    constructor
    · exact Or.inr
    · rintro (rfl | h)
      · exact hk
      · exact h
  · rw [if_neg hk]
    simp only [List.mem_append, List.mem_singleton]
    exact or_comm

theorem mapGet_foldl (ts : List ToolSpec) (acc : List (String × ToolInfo))
    (n : String) :
    mapGet (ts.foldl toolMapStep acc) n = (lastDeclaredInfo ts n).or (mapGet acc n) := by
  induction ts generalizing acc with
  | nil => simp [lastDeclaredInfo]
  | cons t ts ih =>
    rw [List.foldl_cons, ih]
    simp only [lastDeclaredInfo]
    rw [Option.or_assoc]
    congr 1
    unfold toolMapStep
    cases hd : declaredName t with
    | none => simp
    | some m' =>
      rw [mapGet_mapSet]
      by_cases hn : n = m'
      · subst hn
        simp
      · have hne : ¬ (some m' = some n) := fun hh => hn (Option.some.inj hh).symm
        rw [if_neg hn, if_neg hne]
        simp

theorem mapGet_buildToolMap (tools : List ToolSpec) (n : String) :
    mapGet (buildToolMap tools) n = lastDeclaredInfo tools n := by
  unfold buildToolMap
  rw [mapGet_foldl]
  simp [mapGet, Option.or_none]

theorem mapKeys_foldl_nodup (ts : List ToolSpec) (acc : List (String × ToolInfo))
    (h : (mapKeys acc).Nodup) : (mapKeys (ts.foldl toolMapStep acc)).Nodup := by
  induction ts generalizing acc with
  | nil => exact h
  | cons t ts ih =>
    rw [List.foldl_cons]
    apply ih
    unfold toolMapStep
    cases declaredName t with
    | none => exact h
    | some m' => exact mapKeys_mapSet_nodup acc m' (toolInfoOf t) h

theorem mem_mapKeys_foldl (ts : List ToolSpec) (acc : List (String × ToolInfo))
    (n : String) :
    n ∈ mapKeys (ts.foldl toolMapStep acc) ↔
      n ∈ declaredNames ts ∨ n ∈ mapKeys acc := by
  induction ts generalizing acc with
  | nil => simp [declaredNames]
  | cons t ts ih =>
    rw [List.foldl_cons, ih]
    simp only [declaredNames, List.filterMap_cons]
    cases hd : declaredName t with
    | none =>
      unfold toolMapStep
      rw [hd]
    | some m' =>
      unfold toolMapStep
      rw [hd]
      rw [mem_mapKeys_mapSet]
      simp only [List.mem_cons]
      tauto

/-- A config tool named `a`, carrying a function path in its meta. -/
def exToolA : ToolSpec :=
  ⟨some "function", some ⟨some "a", "details-a"⟩, some ⟨some "tools.a", some "id-a", some true⟩⟩

/-- A config tool named `b`, with no meta. -/
def exToolB : ToolSpec := ⟨none, some ⟨some "b", "details-b"⟩, none⟩

/-- The spec's Tool Catalog Builder example: tools named `a` and `b`. -/
def exToolsC3 : List ToolSpec := [exToolA, exToolB]

/-- C3: with memory enabled, the schema list is the config's tools in list
order, each stripped to only its `type` and `function` (no meta exposed),
with the built-in remember schema appended last; the execution map has
exactly one entry per distinct truthy declared function name — lookup
returns the last declaring tool's metadata, keys are distinct, and a name is
a key exactly when some config tool declares it — so `remember` is never
added by the builder; on the spec's example `[a, b]` there are 3 schemas and
exactly 2 map entries, with no `remember` entry. -/
theorem C3_tool_catalog (tools : List ToolSpec) :
    runToolSchemas true tools = buildToolSchemas tools ++ [MEMORY_TOOL_SCHEMA]
    ∧ buildToolSchemas tools = tools.map stripSchema
    ∧ (∀ n, mapGet (buildToolMap tools) n = lastDeclaredInfo tools n)
    ∧ (mapKeys (buildToolMap tools)).Nodup
    ∧ (∀ n, n ∈ mapKeys (buildToolMap tools) ↔ n ∈ declaredNames tools)
    ∧ (buildToolMap exToolsC3).length = 2
    ∧ (runToolSchemas true exToolsC3).length = 3
    ∧ mapGet (buildToolMap exToolsC3) "remember" = none := by
  refine ⟨rfl, rfl, mapGet_buildToolMap tools, ?_, ?_, rfl, rfl, ?_⟩
  · exact mapKeys_foldl_nodup tools [] List.nodup_nil
  · intro n
    have h := mem_mapKeys_foldl tools [] n
    simpa [mapKeys] using h
  · decide

end DynamicAgent
